import Mathlib

/-!
Verification of the falba CLI (`src/falba/cli.py`) against its design
specification.  The Python source is shallowly embedded: machine/file bytes
are `Nat`s below 256, Python's 32-bit arithmetic inside SHA-256 is `Nat`
arithmetic reduced mod 2^32, `dict`s become association lists, Python sets
become `Finset`s, raised `RuntimeError`s become an explicit error type, and
numeric fact/metric values (Python floats/ints) are exact rationals.
-/

deriving instance DecidableEq for Except

namespace Falba

/-! ## SHA-256 (FIPS 180-4) over lists of bytes

`import_result` hashes artifacts with `hashlib.sha256`; we embed the hash
function itself so that the digest-of-digests structure of the import path
is stated over the real algorithm. -/

def wrap32 (n : Nat) : Nat := n % 4294967296

/-- Right rotation of a 32-bit word. -/
def rotr32 (x n : Nat) : Nat := wrap32 ((x >>> n) ||| (x <<< (32 - n)))

/-- Bitwise complement on 32 bits. -/
def not32 (x : Nat) : Nat := x ^^^ 4294967295

def ch32 (e f g : Nat) : Nat := (e &&& f) ^^^ (not32 e &&& g)

def maj32 (a b c : Nat) : Nat := (a &&& b) ^^^ (a &&& c) ^^^ (b &&& c)

def bigSigma0 (x : Nat) : Nat := rotr32 x 2 ^^^ rotr32 x 13 ^^^ rotr32 x 22

def bigSigma1 (x : Nat) : Nat := rotr32 x 6 ^^^ rotr32 x 11 ^^^ rotr32 x 25

def smallSigma0 (x : Nat) : Nat := rotr32 x 7 ^^^ rotr32 x 18 ^^^ (x >>> 3)

def smallSigma1 (x : Nat) : Nat := rotr32 x 17 ^^^ rotr32 x 19 ^^^ (x >>> 10)

/-- The 64 SHA-256 round constants, written in decimal. -/
def sha256K : List Nat :=
  [1116352408, 1899447441, 3049323471, 3921009573, 961987163, 1508970993,
   2453635748, 2870763221, 3624381080, 310598401, 607225278, 1426881987,
   1925078388, 2162078206, 2614888103, 3248222580, 3835390401, 4022224774,
   264347078, 604807628, 770255983, 1249150122, 1555081692, 1996064986,
   2554220882, 2821834349, 2952996808, 3210313671, 3336571891, 3584528711,
   113926993, 338241895, 666307205, 773529912, 1294757372, 1396182291,
   1695183700, 1986661051, 2177026350, 2456956037, 2730485921, 2820302411,
   3259730800, 3345764771, 3516065817, 3600352804, 4094571909, 275423344,
   430227734, 506948616, 659060556, 883997877, 958139571, 1322822218,
   1537002063, 1747873779, 1955562222, 2024104815, 2227730452, 2361852424,
   2428436474, 2756734187, 3204031479, 3329325298]

/-- The eight working variables of the compression function. -/
structure Hash8 where
  a : Nat
  b : Nat
  c : Nat
  d : Nat
  e : Nat
  f : Nat
  g : Nat
  h : Nat

def sha256H0 : Hash8 :=
  ⟨1779033703, 3144134277, 1013904242, 2773480762,
   1359893119, 2600822924, 528734635, 1541459225⟩

/-- One compression round; `kw` is the (already wrapped) sum `K[t] + W[t]`. -/
def sha256Round (s : Hash8) (kw : Nat) : Hash8 :=
  let t1 := wrap32 (s.h + bigSigma1 s.e + ch32 s.e s.f s.g + kw)
  let t2 := wrap32 (bigSigma0 s.a + maj32 s.a s.b s.c)
  ⟨wrap32 (t1 + t2), s.a, s.b, s.c, wrap32 (s.d + t1), s.e, s.f, s.g⟩

/-- Big-endian packing of bytes into 32-bit words. -/
def toWords32 : List Nat → List Nat
  | b0 :: b1 :: b2 :: b3 :: rest =>
      (((b0 * 256 + b1) * 256 + b2) * 256 + b3) :: toWords32 rest
  | _ => []

/-- Extend a 16-word block by `n` further schedule words. -/
def msgSchedule (w : List Nat) : Nat → List Nat
  | 0 => w
  | n + 1 =>
      let prev := msgSchedule w n
      let m := prev.length
      prev ++ [wrap32 (smallSigma1 (prev.getD (m - 2) 0) + prev.getD (m - 7) 0 +
                       smallSigma0 (prev.getD (m - 15) 0) + prev.getD (m - 16) 0)]

def compressBlock (hv : Hash8) (block : List Nat) : Hash8 :=
  let w := msgSchedule (toWords32 block) 48
  let kw := List.zipWith (fun k wt => wrap32 (k + wt)) sha256K w
  let s := kw.foldl sha256Round hv
  ⟨wrap32 (hv.a + s.a), wrap32 (hv.b + s.b), wrap32 (hv.c + s.c),
   wrap32 (hv.d + s.d), wrap32 (hv.e + s.e), wrap32 (hv.f + s.f),
   wrap32 (hv.g + s.g), wrap32 (hv.h + s.h)⟩

/-- Big-endian 8-byte encoding of the bit length. -/
def lengthBytes8 (n : Nat) : List Nat :=
  [n / 2 ^ 56 % 256, n / 2 ^ 48 % 256, n / 2 ^ 40 % 256, n / 2 ^ 32 % 256,
   n / 2 ^ 24 % 256, n / 2 ^ 16 % 256, n / 2 ^ 8 % 256, n % 256]

/-- Merkle–Damgård padding: `0x80`, zeros, then the 64-bit message bit length. -/
def sha256Pad (msg : List Nat) : List Nat :=
  let zeros := (64 - (msg.length + 9) % 64) % 64
  msg ++ 128 :: (List.replicate zeros 0 ++ lengthBytes8 (msg.length * 8))

/-- Split the padded message into 64-byte blocks. -/
def toBlocks : List Nat → List (List Nat)
  | [] => []
  | b :: rest => ((b :: rest).take 64) :: toBlocks ((b :: rest).drop 64)
termination_by l => l.length
decreasing_by simp [List.length_drop]; omega

/-- Big-endian unpacking of a 32-bit word into four bytes. -/
def wordToBytes (w : Nat) : List Nat :=
  [w / 16777216 % 256, w / 65536 % 256, w / 256 % 256, w % 256]

def hash8Bytes (s : Hash8) : List Nat :=
  wordToBytes s.a ++ wordToBytes s.b ++ wordToBytes s.c ++ wordToBytes s.d ++
  wordToBytes s.e ++ wordToBytes s.f ++ wordToBytes s.g ++ wordToBytes s.h

/-- SHA-256 digest (32 bytes) of a byte list. -/
def sha256 (msg : List Nat) : List Nat :=
  hash8Bytes ((toBlocks (sha256Pad msg)).foldl compressBlock sha256H0)

/-- Lowercase hex digit, as produced by Python's `hexdigest`. -/
def hexChar (n : Nat) : Char :=
  if n < 10 then Char.ofNat (48 + n) else Char.ofNat (87 + n)

/-- Lowercase hex rendering of a byte list. -/
def hexChars (bytes : List Nat) : List Char :=
  bytes.flatMap (fun b => [hexChar (b / 16), hexChar (b % 16)])

/-! ## Data model

Modelled from the spec: the `falba` module (the `Result`/`Db` objects and
`flat_df`) is an out-of-scope collaborator; fact values are an opaque tagged
variant with structural equality, absence being distinct from every value. -/

inductive FactVal where
  | str (s : String)
  | num (q : ℚ)
  | bool (b : Bool)
deriving DecidableEq

/-- Modelled from the spec: a `Result` exposes `.result_id`, `.facts`
(a mapping name → fact whose `.value` we inline) and its metric rows,
possibly several samples per metric name. The mapping is an association
list, lookup taking the first binding. -/
structure Result where
  result_id : String
  facts : List (String × FactVal)
  metrics : List (String × ℚ)
deriving DecidableEq

def factsLookup (facts : List (String × FactVal)) (n : String) : Option FactVal :=
  (facts.find? (fun p => decide (p.1 = n))).map (fun p => p.2)

/-- `extant_facts`: fact names seen across the entire unfiltered database.
The Python `set` becomes a deduplicated list (set-iteration order is
unspecified in Python; the claims do not depend on the order). -/
def extantFacts (db : List Result) : List String :=
  (db.flatMap (fun r => r.facts.map Prod.fst)).dedup

/-- `include_result` from `compare`: a result is kept unless it carries a
constrained fact with a different value. -/
def include_result (facts_eq : List (String × FactVal)) (r : Result) : Bool :=
  facts_eq.all (fun p =>
    match factsLookup r.facts p.1 with
    | some v => decide (v = p.2)
    | none => true)

/-- `results = [r for r in db.results.values() if include_result(r)]`. -/
def filteredResults (db : List Result) (facts_eq : List (String × FactVal)) :
    List Result :=
  db.filter (include_result facts_eq)

/-- `vals`: the distinct values a fact takes across a result list, a missing
fact contributing `none` (Python's `None`). -/
def factVals (results : List Result) (f : String) : Finset (Option FactVal) :=
  (results.map (fun r => factsLookup r.facts f)).toFinset

/-- The first fact (in `extant_facts` order) that is neither the experiment
fact nor constrained by `facts_eq` yet takes a number of distinct values
other than one across the filtered results. -/
def confoundingFact (db : List Result) (facts_eq : List (String × FactVal))
    (experiment_fact : String) (results : List Result) : Option String :=
  (extantFacts db).find? (fun f =>
    decide (f ≠ experiment_fact ∧ f ∉ facts_eq.map Prod.fst ∧
            (factVals results f).card ≠ 1))

/-- Modelled from the spec: a row of `db.flat_df()` — one row per
(result, metric sample) pair, carrying the result's id and facts. -/
structure FlatRow where
  result_id : String
  facts : List (String × FactVal)
  metric : String
  value : ℚ
deriving DecidableEq

/-- Modelled from the spec: `db.flat_df()`. -/
def flatDf (db : List Result) : List FlatRow :=
  db.flatMap (fun r => r.metrics.map (fun m => ⟨r.result_id, r.facts, m.1, m.2⟩))

/-- `results_df`: the flat rows whose `result_id` belongs to a filtered
result. -/
def selectedRows (db : List Result) (facts_eq : List (String × FactVal)) :
    List FlatRow :=
  (flatDf db).filter (fun row =>
    decide (row.result_id ∈ (filteredResults db facts_eq).map Result.result_id))

/-- `df = results_df.filter(pl.col("metric") == metric)`. -/
def metricRows (db : List Result) (facts_eq : List (String × FactVal))
    (metric : String) : List FlatRow :=
  (selectedRows db facts_eq).filter (fun row => decide (row.metric = metric))

/-- The `RuntimeError`s `compare` can raise, with the data its messages are
required to carry. -/
inductive CompareError where
  | unknownFacts (missing : Finset String) (avail : Finset String)
  | confounding (fact : String) (vals : Finset (Option FactVal))
  | emptySelection
  | noMatchingMetric (metric : String) (avail : Finset String)
deriving DecidableEq

/-- One output row of the aggregation. -/
structure AggRow where
  key : Option FactVal
  samples : Nat
  mean : ℚ
  stdSq : Option ℚ
deriving DecidableEq

/-- `pl.col(experiment_fact)` on a flat row: the result's value for the
experiment fact, `none` (null) when absent. -/
def rowKey (experiment_fact : String) (row : FlatRow) : Option FactVal :=
  factsLookup row.facts experiment_fact

def listMean (vs : List ℚ) : ℚ := vs.sum / vs.length

/-- The square of polars' sample standard deviation (`ddof = 1`); `none`
below two samples, as polars returns null there. Floats are modelled as
exact rationals, so the standard deviation itself is the (irrational in
general) square root of this value. -/
def sampleVarQ (vs : List ℚ) : Option ℚ :=
  if 2 ≤ vs.length then
    some ((vs.map (fun v => (v - listMean vs) ^ 2)).sum / ((vs.length : ℚ) - 1))
  else none

/-- The rows grouped under one value of the experiment fact. -/
def groupRows (rows : List FlatRow) (experiment_fact : String)
    (k : Option FactVal) : List FlatRow :=
  rows.filter (fun row => decide (rowKey experiment_fact row = k))

/-- `group_by(pl.col(experiment_fact)).agg(len, mean, std)`: one row per
distinct key, in some order (polars leaves the order unspecified). -/
def aggRows (rows : List FlatRow) (experiment_fact : String) : List AggRow :=
  ((rows.map (rowKey experiment_fact)).dedup).map (fun k =>
    ⟨k, ((groupRows rows experiment_fact k).map FlatRow.value).length,
     listMean ((groupRows rows experiment_fact k).map FlatRow.value),
     sampleVarQ ((groupRows rows experiment_fact k).map FlatRow.value)⟩)

/-- The validation prefix of `compare` (`cli.py` lines 20–62), in the
code's order: unknown-fact check, filtering, confounding-fact loop, then
the empty-selection check on the selected flat rows. -/
def validate (db : List Result) (facts_eq : List (String × FactVal))
    (experiment_fact : String) : Except CompareError Unit :=
  if (facts_eq.map Prod.fst).filter (fun k => decide (k ∉ extantFacts db)) = [] then
    match confoundingFact db facts_eq experiment_fact (filteredResults db facts_eq) with
    | some f => .error (.confounding f (factVals (filteredResults db facts_eq) f))
    | none =>
        if selectedRows db facts_eq = [] then .error .emptySelection else .ok ()
  else
    .error (.unknownFacts
      ((facts_eq.map Prod.fst).filter (fun k => decide (k ∉ extantFacts db))).toFinset
      (extantFacts db).toFinset)

/-- The whole of `compare`: validation, the metric restriction with its
`NoMatchingMetricError`, then the aggregation. -/
def compare (db : List Result) (facts_eq : List (String × FactVal))
    (experiment_fact metric : String) : Except CompareError (List AggRow) :=
  match validate db facts_eq experiment_fact with
  | .error e => .error e
  | .ok _ =>
      if metricRows db facts_eq metric = [] then
        .error (.noMatchingMetric metric
          ((selectedRows db facts_eq).map FlatRow.metric).toFinset)
      else .ok (aggRows (metricRows db facts_eq metric) experiment_fact)

/-! ## The import path -/

/-- An artifact input: a regular file (base name, content bytes) or a
directory tree. -/
inductive FsEntry where
  | file (name : String) (content : List Nat)
  | dir (name : String) (children : List FsEntry)

mutual

/-- `iter_artifacts` for one input path: a file lands at the artifact-tree
root under its base name; a directory contributes each file under it at its
path relative to the directory — the directory's own files first, then each
subdirectory depth-first, following `Path.walk`'s top-down order. -/
def walkTree : FsEntry → List (List String × List Nat)
  | .file n c => [([n], c)]
  | .dir _ cs => topFiles cs ++ subdirRows cs

/-- The direct files of a directory, in order. -/
def topFiles : List FsEntry → List (List String × List Nat)
  | [] => []
  | .file n c :: rest => ([n], c) :: topFiles rest
  | .dir _ _ :: rest => topFiles rest

/-- The recursively walked subdirectories, every row prefixed with its
subdirectory's name. -/
def subdirRows : List FsEntry → List (List String × List Nat)
  | [] => []
  | .file _ _ :: rest => subdirRows rest
  | .dir n gcs :: rest =>
      (walkTree (.dir n gcs)).map (fun pc => (n :: pc.1, pc.2)) ++ subdirRows rest

end

/-- `iter_artifacts` over all input paths, in order. -/
def iterArtifacts (inputs : List FsEntry) : List (List String × List Nat) :=
  inputs.flatMap walkTree

/-- The digest-of-digests: SHA-256 of the concatenation of the per-file
SHA-256 content digests, in enumeration order. -/
def aggregateDigest (inputs : List FsEntry) : List Nat :=
  sha256 ((iterArtifacts inputs).flatMap (fun a => sha256 a.2))

/-- `hash.hexdigest()[:12]`. -/
def shortHash (inputs : List FsEntry) : String :=
  String.mk ((hexChars (aggregateDigest inputs)).take 12)

/-- The target result directory `f"{test_name}:{hash.hexdigest()[:12]}"`. -/
def resultDirName (test_name : String) (inputs : List FsEntry) : String :=
  test_name ++ ":" ++ shortHash inputs

inductive ImportError where
  | alreadyExists (dir : String)
deriving DecidableEq

/-- Outcome of a successful import: the updated list of result directories,
the created directory, and the copied artifacts (eventual path relative to
`artifacts/`, content). -/
structure ImportOk where
  dirs : List String
  result_dir : String
  copied : List (List String × List Nat)
deriving DecidableEq

/-- `import_result`: `os.mkdir` fails when the target directory already
exists — before any file is copied — and otherwise the directory is created
and every enumerated artifact copied. The database root is modelled by the
list of its existing result-directory names. -/
def import_result (dirs : List String) (test_name : String)
    (inputs : List FsEntry) : Except ImportError ImportOk :=
  if resultDirName test_name inputs ∈ dirs then
    .error (.alreadyExists (resultDirName test_name inputs))
  else
    .ok ⟨resultDirName test_name inputs :: dirs, resultDirName test_name inputs,
         iterArtifacts inputs⟩

/-! ## Concrete databases, used to instantiate the theorems

`exR1`–`exR3` are the concrete scenario of spec §8. -/

def exR1 : Result := ⟨"R1", [("os", .str "linux"), ("variant", .str "A")], [("latency", 10)]⟩

def exR2 : Result := ⟨"R2", [("os", .str "linux"), ("variant", .str "B")], [("latency", 20)]⟩

def exR3 : Result := ⟨"R3", [("os", .str "windows"), ("variant", .str "A")], [("latency", 15)]⟩

def exDb : List Result := [exR1, exR2, exR3]

/-- A result carrying two facts, used with a selection that matches nothing. -/
def exS1 : Result := ⟨"S1", [("os", .str "linux"), ("arch", .str "x86")], [("latency", 10)]⟩

/-- A result with no facts at all and a single metric sample. -/
def exP1 : Result := ⟨"P1", [], [("m", 1)]⟩

/-! ## Supporting lemmas -/

theorem include_result_eq_true (facts_eq : List (String × FactVal)) (r : Result) :
    include_result facts_eq r = true ↔
      ∀ p ∈ facts_eq,
        factsLookup r.facts p.1 = none ∨ factsLookup r.facts p.1 = some p.2 := by
  unfold include_result
  rw [List.all_eq_true]
  constructor
  · intro h p hp
    have hb := h p hp
    cases hlk : factsLookup r.facts p.1 with
    | none => exact Or.inl rfl
    | some v =>
        rw [hlk] at hb
        simp only [decide_eq_true_eq] at hb
        exact Or.inr (by rw [hb])
  · intro h p hp
    rcases h p hp with h1 | h1 <;> simp [h1]

/-- The unknown-keys filter is empty exactly when every key is extant. -/
theorem missing_filter_eq_nil (db : List Result) (facts_eq : List (String × FactVal)) :
    (facts_eq.map Prod.fst).filter (fun k => decide (k ∉ extantFacts db)) = [] ↔
      ∀ k ∈ facts_eq.map Prod.fst, k ∈ extantFacts db := by
  rw [List.filter_eq_nil_iff]
  constructor
  · intro h k hk
    have := h k hk
    simpa using this
  · intro h k hk
    simpa using h k hk

end Falba

/-- C3: for every list of results and every `facts_eq` mapping, the filter
includes a result iff for every (name, requiredValue) pair the result either
lacks that fact or its value equals the required one; in particular a result
missing a constrained fact is not excluded. -/
theorem Falba.filteredResults_mem_iff (db : List Falba.Result)
    (facts_eq : List (String × Falba.FactVal)) (r : Falba.Result) :
    r ∈ Falba.filteredResults db facts_eq ↔
      r ∈ db ∧ ∀ p ∈ facts_eq,
        Falba.factsLookup r.facts p.1 = none ∨
        Falba.factsLookup r.facts p.1 = some p.2 := by
  unfold Falba.filteredResults
  rw [List.mem_filter, Falba.include_result_eq_true]

/-- C4: `validate` fails with `UnknownFactError` iff some key of `facts_eq`
is not among the fact names seen across the entire unfiltered database, and
the error carries exactly the missing names together with the full set of
available fact names. -/
theorem Falba.validate_unknown_fact_iff (db : List Falba.Result)
    (facts_eq : List (String × Falba.FactVal)) (experiment_fact : String) :
    ((∃ m a, Falba.validate db facts_eq experiment_fact =
        .error (.unknownFacts m a)) ↔
      ∃ k ∈ facts_eq.map Prod.fst, k ∉ Falba.extantFacts db) ∧
    ∀ m a, Falba.validate db facts_eq experiment_fact =
        .error (.unknownFacts m a) →
      (∀ k, k ∈ m ↔ k ∈ facts_eq.map Prod.fst ∧ k ∉ Falba.extantFacts db) ∧
      a = (Falba.extantFacts db).toFinset := by
  by_cases hm : (facts_eq.map Prod.fst).filter
      (fun k => decide (k ∉ Falba.extantFacts db)) = []
  · have hval : ∀ m a, Falba.validate db facts_eq experiment_fact ≠
        .error (.unknownFacts m a) := by
      intro m a
      unfold Falba.validate
      rw [if_pos hm]
      cases hc : Falba.confoundingFact db facts_eq experiment_fact
          (Falba.filteredResults db facts_eq) with
      | some f => simp
      | none =>
          by_cases hs : Falba.selectedRows db facts_eq = [] <;>
            simp [hs]
    constructor
    · constructor
      · rintro ⟨m, a, h⟩
        exact absurd h (hval m a)
      · rintro ⟨k, hk, hnot⟩
        exact absurd ((Falba.missing_filter_eq_nil db facts_eq).mp hm k hk) hnot
    · intro m a h
      exact absurd h (hval m a)
  · have hval : Falba.validate db facts_eq experiment_fact =
        .error (.unknownFacts
          ((facts_eq.map Prod.fst).filter
            (fun k => decide (k ∉ Falba.extantFacts db))).toFinset
          (Falba.extantFacts db).toFinset) := by
      unfold Falba.validate
      rw [if_neg hm]
    constructor
    · constructor
      · intro _
        obtain ⟨k, hk⟩ := List.exists_mem_of_ne_nil _ hm
        rw [List.mem_filter] at hk
        exact ⟨k, hk.1, by simpa using hk.2⟩
      · intro _
        exact ⟨_, _, hval⟩
    · intro m a h
      rw [hval] at h
      injection h with h
      injection h with h1 h2
      refine ⟨fun k => ?_, h2.symm⟩
      rw [← h1, List.mem_toFinset, List.mem_filter]
      simp

namespace Falba

/-- A nonempty result list gives every fact at least one observed value. -/
theorem factVals_card_pos (results : List Result) (f : String)
    (hne : results ≠ []) : 0 < (factVals results f).card := by
  obtain ⟨r, hr⟩ := List.exists_mem_of_ne_nil _ hne
  refine Finset.card_pos.mpr ⟨factsLookup r.facts f, ?_⟩
  exact List.mem_toFinset.mpr (List.mem_map_of_mem _ hr)

end Falba

/-- C1: once the unknown-fact check passes (Step 3 is only reached then) and
the filtered result list is nonempty, `validate` fails with
`ConfoundingFactError` iff some fact name among the extant fact names, other
than the experiment fact and the keys of `facts_eq`, takes more than one
distinct value across the filtered results (absence counting as one further
value); the raised error names such an offending fact and carries exactly
the set of distinct values observed for it. -/
theorem Falba.validate_confounding_iff (db : List Falba.Result)
    (facts_eq : List (String × Falba.FactVal)) (experiment_fact : String)
    (hkeys : ∀ k ∈ facts_eq.map Prod.fst, k ∈ Falba.extantFacts db)
    (hne : Falba.filteredResults db facts_eq ≠ []) :
    ((∃ f vals, Falba.validate db facts_eq experiment_fact =
        .error (.confounding f vals)) ↔
      ∃ f ∈ Falba.extantFacts db, f ≠ experiment_fact ∧
        f ∉ facts_eq.map Prod.fst ∧
        1 < (Falba.factVals (Falba.filteredResults db facts_eq) f).card) ∧
    ∀ f vals, Falba.validate db facts_eq experiment_fact =
        .error (.confounding f vals) →
      f ∈ Falba.extantFacts db ∧ f ≠ experiment_fact ∧
      f ∉ facts_eq.map Prod.fst ∧
      vals = Falba.factVals (Falba.filteredResults db facts_eq) f ∧
      1 < vals.card := by
  have hm : (facts_eq.map Prod.fst).filter
      (fun k => decide (k ∉ Falba.extantFacts db)) = [] :=
    (Falba.missing_filter_eq_nil db facts_eq).mpr hkeys
  cases hc : Falba.confoundingFact db facts_eq experiment_fact
      (Falba.filteredResults db facts_eq) with
  | some f =>
      have hval : Falba.validate db facts_eq experiment_fact =
          .error (.confounding f
            (Falba.factVals (Falba.filteredResults db facts_eq) f)) := by
        unfold Falba.validate
        rw [if_pos hm, hc]
      have hc' := hc
      unfold Falba.confoundingFact at hc'
      have hpred := List.find?_some hc'
      rw [decide_eq_true_eq] at hpred
      obtain ⟨hf1, hf2, hf3⟩ := hpred
      have hfm : f ∈ Falba.extantFacts db := List.mem_of_find?_eq_some hc'
      have hpos := Falba.factVals_card_pos (Falba.filteredResults db facts_eq) f hne
      have hgt : 1 < (Falba.factVals (Falba.filteredResults db facts_eq) f).card := by
        omega
      constructor
      · constructor
        · intro _
          exact ⟨f, hfm, hf1, hf2, hgt⟩
        · intro _
          exact ⟨f, _, hval⟩
      · intro f' vals' h
        rw [hval] at h
        injection h with h
        injection h with h1 h2
        subst h1
        exact ⟨hfm, hf1, hf2, h2.symm, h2 ▸ hgt⟩
  | none =>
      have hc' := hc
      unfold Falba.confoundingFact at hc'
      have hnone := List.find?_eq_none.mp hc'
      have hval : ∀ f vals, Falba.validate db facts_eq experiment_fact ≠
          .error (.confounding f vals) := by
        intro f vals
        unfold Falba.validate
        rw [if_pos hm, hc]
        by_cases hs : Falba.selectedRows db facts_eq = [] <;> simp [hs]
      constructor
      · constructor
        · rintro ⟨f, vals, h⟩
          exact absurd h (hval f vals)
        · rintro ⟨f, hfm, hf1, hf2, hgt⟩
          have := hnone f hfm
          rw [decide_eq_true_eq] at this
          exact absurd ⟨hf1, hf2, by omega⟩ this
      · intro f vals h
        exact absurd h (hval f vals)

/-- Witness for C1 at the concrete spec-§8 database with no pinned facts:
`os` is an uncontrolled fact taking two values there. -/
theorem Falba.validate_confounding_iff_witness :
    (∃ f vals, Falba.validate Falba.exDb [] "variant" =
        .error (.confounding f vals)) ↔
      ∃ f ∈ Falba.extantFacts Falba.exDb, f ≠ "variant" ∧
        f ∉ ([] : List (String × Falba.FactVal)).map Prod.fst ∧
        1 < (Falba.factVals (Falba.filteredResults Falba.exDb []) f).card :=
  (Falba.validate_confounding_iff Falba.exDb [] "variant" (by simp)
    (by decide)).1

/-- C2 counterexample: with the database `[exS1]` (facts `os` and `arch`),
`facts_eq = [os ↦ windows]` (a key that exists) and experiment fact
`variant`, the filtered result list is empty, yet `validate` fails with
`ConfoundingFactError` on `arch` (with an empty value set) and not with
`EmptySelectionError`: the code runs its confounding loop before its
empty-selection check. -/
theorem Falba.empty_selection_counterexample :
    (∀ k ∈ [("os", Falba.FactVal.str "windows")].map Prod.fst,
        k ∈ Falba.extantFacts [Falba.exS1]) ∧
    Falba.filteredResults [Falba.exS1] [("os", .str "windows")] = [] ∧
    Falba.validate [Falba.exS1] [("os", .str "windows")] "variant" =
      .error (.confounding "arch" ∅) ∧
    Falba.validate [Falba.exS1] [("os", .str "windows")] "variant" ≠
      .error .emptySelection := by decide

/-- C2 amended: the empty-selection check runs after the confounding loop.
When every `facts_eq` key exists and the filtered result list is empty,
`validate` fails with `EmptySelectionError` exactly when every extant fact
name is the experiment fact or a `facts_eq` key; otherwise it fails with
`ConfoundingFactError` naming an extant fact that is neither the experiment
fact nor a `facts_eq` key, the observed value set being empty — and any
confounding error it raises here names such a fact. -/
theorem Falba.validate_empty_after_confounding (db : List Falba.Result)
    (facts_eq : List (String × Falba.FactVal)) (experiment_fact : String)
    (hkeys : ∀ k ∈ facts_eq.map Prod.fst, k ∈ Falba.extantFacts db)
    (hempty : Falba.filteredResults db facts_eq = []) :
    (Falba.validate db facts_eq experiment_fact = .error .emptySelection ↔
      ∀ f ∈ Falba.extantFacts db,
        f = experiment_fact ∨ f ∈ facts_eq.map Prod.fst) ∧
    (∀ f vals, Falba.validate db facts_eq experiment_fact =
        .error (.confounding f vals) →
      f ∈ Falba.extantFacts db ∧ f ≠ experiment_fact ∧
      f ∉ facts_eq.map Prod.fst ∧ vals = ∅) ∧
    (¬(∀ f ∈ Falba.extantFacts db,
        f = experiment_fact ∨ f ∈ facts_eq.map Prod.fst) →
      ∃ f ∈ Falba.extantFacts db, f ≠ experiment_fact ∧
        f ∉ facts_eq.map Prod.fst ∧
        Falba.validate db facts_eq experiment_fact =
          .error (.confounding f ∅)) := by
  have hm : (facts_eq.map Prod.fst).filter
      (fun k => decide (k ∉ Falba.extantFacts db)) = [] :=
    (Falba.missing_filter_eq_nil db facts_eq).mpr hkeys
  have hsel : Falba.selectedRows db facts_eq = [] := by
    unfold Falba.selectedRows
    refine List.filter_eq_nil_iff.mpr (fun row _ => ?_)
    rw [hempty]
    simp
  have hvals : ∀ f, Falba.factVals (Falba.filteredResults db facts_eq) f = ∅ := by
    intro f
    rw [hempty]
    simp [Falba.factVals]
  by_cases hall : ∀ f ∈ Falba.extantFacts db,
      f = experiment_fact ∨ f ∈ facts_eq.map Prod.fst
  · have hfind : Falba.confoundingFact db facts_eq experiment_fact
        (Falba.filteredResults db facts_eq) = none := by
      unfold Falba.confoundingFact
      rw [List.find?_eq_none]
      intro f hf
      simp only [decide_eq_true_eq]
      rintro ⟨h1, h2, _⟩
      rcases hall f hf with h | h
      · exact h1 h
      · exact h2 h
    have hv : Falba.validate db facts_eq experiment_fact =
        .error .emptySelection := by
      unfold Falba.validate
      rw [if_pos hm, hfind, if_pos hsel]
    refine ⟨⟨fun _ => hall, fun _ => hv⟩, fun f vals h => ?_, fun h => absurd hall h⟩
    rw [hv] at h
    simp at h
  · have hex : ∃ f ∈ Falba.extantFacts db,
        f ≠ experiment_fact ∧ f ∉ facts_eq.map Prod.fst := by
      push_neg at hall
      exact hall
    cases hcf : Falba.confoundingFact db facts_eq experiment_fact
        (Falba.filteredResults db facts_eq) with
    | none =>
        exfalso
        have hcf' := hcf
        unfold Falba.confoundingFact at hcf'
        have hnone := List.find?_eq_none.mp hcf'
        obtain ⟨f, hf, h1, h2⟩ := hex
        have := hnone f hf
        rw [decide_eq_true_eq] at this
        exact this ⟨h1, h2, by rw [hvals f]; simp⟩
    | some f0 =>
        have hv : Falba.validate db facts_eq experiment_fact =
            .error (.confounding f0 ∅) := by
          unfold Falba.validate
          rw [if_pos hm, hcf]
          simp only [hvals]
        have hc' := hcf
        unfold Falba.confoundingFact at hc'
        have hpred := List.find?_some hc'
        rw [decide_eq_true_eq] at hpred
        obtain ⟨hp1, hp2, _⟩ := hpred
        have hmem : f0 ∈ Falba.extantFacts db := List.mem_of_find?_eq_some hc'
        refine ⟨⟨fun h => ?_, fun h => absurd h hall⟩,
          fun f vals h => ?_, fun _ => ⟨f0, hmem, hp1, hp2, hv⟩⟩
        · rw [hv] at h
          simp at h
        · rw [hv] at h
          injection h with h
          injection h with h1 h2
          subst h1
          exact ⟨hmem, hp1, hp2, h2.symm⟩

/-- Witness for the amended C2 at the counterexample database: the
equivalence and the confounding outcome hold there concretely. -/
theorem Falba.validate_empty_after_confounding_witness :
    (Falba.validate [Falba.exS1] [("os", Falba.FactVal.str "windows")] "variant" =
        .error .emptySelection ↔
      ∀ f ∈ Falba.extantFacts [Falba.exS1],
        f = "variant" ∨ f ∈ [("os", Falba.FactVal.str "windows")].map Prod.fst) ∧
    (∀ f vals, Falba.validate [Falba.exS1]
        [("os", Falba.FactVal.str "windows")] "variant" =
        .error (.confounding f vals) →
      f ∈ Falba.extantFacts [Falba.exS1] ∧ f ≠ "variant" ∧
      f ∉ [("os", Falba.FactVal.str "windows")].map Prod.fst ∧ vals = ∅) ∧
    (¬(∀ f ∈ Falba.extantFacts [Falba.exS1],
        f = "variant" ∨ f ∈ [("os", Falba.FactVal.str "windows")].map Prod.fst) →
      ∃ f ∈ Falba.extantFacts [Falba.exS1], f ≠ "variant" ∧
        f ∉ [("os", Falba.FactVal.str "windows")].map Prod.fst ∧
        Falba.validate [Falba.exS1]
          [("os", Falba.FactVal.str "windows")] "variant" =
          .error (.confounding f ∅)) :=
  Falba.validate_empty_after_confounding [Falba.exS1]
    [("os", Falba.FactVal.str "windows")] "variant" (by decide) (by decide)

namespace Falba

/-- Two imports of the same artifacts target the same directory name only
under the same test name: the fixed suffix cancels. -/
theorem resultDirName_inj (t1 t2 : String) (inputs : List FsEntry)
    (h : resultDirName t1 inputs = resultDirName t2 inputs) : t1 = t2 := by
  unfold resultDirName at h
  have h2 := congrArg String.data h
  rw [String.data_append, String.data_append, String.data_append,
      String.data_append] at h2
  exact String.ext (List.append_cancel_right (List.append_cancel_right h2))

end Falba

/-- C5: importing into a database that already holds the target directory
`"{test_name}:{short_hash}"` fails with `AlreadyExistsError` (the error
return carries no new state: nothing is copied); hence importing the same
artifact set twice under the same test name fails the second time, while
importing identical artifacts under a fresh different test name succeeds
and creates a distinct directory name. -/
theorem Falba.import_already_exists (dirs : List String) (t t2 : String)
    (inputs : List Falba.FsEntry) (hne : t2 ≠ t)
    (h1 : Falba.resultDirName t inputs ∉ dirs)
    (h2 : Falba.resultDirName t2 inputs ∉ dirs) :
    (∀ dirs0, Falba.resultDirName t inputs ∈ dirs0 →
      Falba.import_result dirs0 t inputs =
        .error (.alreadyExists (Falba.resultDirName t inputs))) ∧
    ∃ ok1, Falba.import_result dirs t inputs = .ok ok1 ∧
      Falba.import_result ok1.dirs t inputs =
        .error (.alreadyExists (Falba.resultDirName t inputs)) ∧
      ∃ ok2, Falba.import_result ok1.dirs t2 inputs = .ok ok2 ∧
        ok2.result_dir ≠ ok1.result_dir := by
  have hinj : Falba.resultDirName t2 inputs ≠ Falba.resultDirName t inputs :=
    fun h => hne (Falba.resultDirName_inj t2 t inputs h)
  have hfail : ∀ dirs0, Falba.resultDirName t inputs ∈ dirs0 →
      Falba.import_result dirs0 t inputs =
        .error (.alreadyExists (Falba.resultDirName t inputs)) := by
    intro dirs0 hmem
    unfold Falba.import_result
    rw [if_pos hmem]
  refine ⟨hfail, ⟨Falba.resultDirName t inputs :: dirs,
    Falba.resultDirName t inputs, Falba.iterArtifacts inputs⟩, ?_, ?_, ?_⟩
  · unfold Falba.import_result
    rw [if_neg h1]
  · exact hfail _ (List.mem_cons_self _ _)
  · have hnotmem : Falba.resultDirName t2 inputs ∉
        Falba.resultDirName t inputs :: dirs := by
      intro hmem
      rcases List.mem_cons.mp hmem with h | h
      · exact hinj h
      · exact h2 h
    refine ⟨⟨Falba.resultDirName t2 inputs :: (Falba.resultDirName t inputs :: dirs),
      Falba.resultDirName t2 inputs, Falba.iterArtifacts inputs⟩, ?_, hinj⟩
    unfold Falba.import_result
    rw [if_neg hnotmem]

/-- Witness for C5: starting from an empty database with empty-artifact
imports under test names `a` and `b`. -/
theorem Falba.import_already_exists_witness :
    (∀ dirs0, Falba.resultDirName "a" [] ∈ dirs0 →
      Falba.import_result dirs0 "a" [] =
        .error (.alreadyExists (Falba.resultDirName "a" []))) ∧
    ∃ ok1, Falba.import_result [] "a" [] = .ok ok1 ∧
      Falba.import_result ok1.dirs "a" [] =
        .error (.alreadyExists (Falba.resultDirName "a" [])) ∧
      ∃ ok2, Falba.import_result ok1.dirs "b" [] = .ok ok2 ∧
        ok2.result_dir ≠ ok1.result_dir :=
  Falba.import_already_exists [] "a" "b" [] (by decide)
    (List.not_mem_nil _) (List.not_mem_nil _)

/-- C6: a successful import creates exactly the directory
`test_name ++ ":" ++` the first 12 hex characters of the SHA-256 digest of
the concatenation of the per-file SHA-256 content digests of the discovered
artifacts, in enumeration order; that directory is appended to the database
and the enumerated artifacts are the files copied. -/
theorem Falba.import_short_hash (dirs : List String) (t : String)
    (inputs : List Falba.FsEntry) (ok : Falba.ImportOk)
    (h : Falba.import_result dirs t inputs = .ok ok) :
    ok.result_dir = t ++ ":" ++ String.mk
      ((Falba.hexChars (Falba.sha256
        ((Falba.iterArtifacts inputs).flatMap (fun a => Falba.sha256 a.2)))).take 12) ∧
    ok.dirs = ok.result_dir :: dirs ∧
    ok.copied = Falba.iterArtifacts inputs := by
  unfold Falba.import_result at h
  by_cases hmem : Falba.resultDirName t inputs ∈ dirs
  · rw [if_pos hmem] at h
    simp at h
  · rw [if_neg hmem] at h
    injection h with h
    subst h
    exact ⟨rfl, rfl, rfl⟩

/-- Witness for C6: importing the empty artifact list into an empty
database under test name `bench`. -/
theorem Falba.import_short_hash_witness :
    ∃ ok, Falba.import_result [] "bench" [] = Except.ok ok ∧
      ok.result_dir = "bench" ++ ":" ++ String.mk
        ((Falba.hexChars (Falba.sha256
          ((Falba.iterArtifacts ([] : List Falba.FsEntry)).flatMap
            (fun a => Falba.sha256 a.2)))).take 12) ∧
      ok.dirs = [ok.result_dir] ∧
      ok.copied = Falba.iterArtifacts ([] : List Falba.FsEntry) := by
  have h : Falba.import_result [] "bench" [] = Except.ok
      ⟨[Falba.resultDirName "bench" []], Falba.resultDirName "bench" [],
       Falba.iterArtifacts []⟩ := by
    unfold Falba.import_result
    rw [if_neg (List.not_mem_nil _)]
  obtain ⟨ha, hb, hc⟩ := Falba.import_short_hash [] "bench" [] _ h
  exact ⟨_, h, ha, hb, hc⟩

/-- C10: the aggregate hash depends only on the sequence of file contents in
enumeration order — two artifact sets whose enumerations carry identical
byte contents in the same order get the same short hash and result
directory name, whatever the file names and directory structure. -/
theorem Falba.short_hash_content_only (t : String) (i1 i2 : List Falba.FsEntry)
    (h : (Falba.iterArtifacts i1).map Prod.snd =
         (Falba.iterArtifacts i2).map Prod.snd) :
    Falba.shortHash i1 = Falba.shortHash i2 ∧
    Falba.resultDirName t i1 = Falba.resultDirName t i2 := by
  have hagg : Falba.aggregateDigest i1 = Falba.aggregateDigest i2 := by
    unfold Falba.aggregateDigest
    rw [show (Falba.iterArtifacts i1).flatMap (fun a => Falba.sha256 a.2) =
        ((Falba.iterArtifacts i1).map Prod.snd).flatMap Falba.sha256 from
        (List.flatMap_map Prod.snd Falba.sha256 (Falba.iterArtifacts i1)).symm,
      show (Falba.iterArtifacts i2).flatMap (fun a => Falba.sha256 a.2) =
        ((Falba.iterArtifacts i2).map Prod.snd).flatMap Falba.sha256 from
        (List.flatMap_map Prod.snd Falba.sha256 (Falba.iterArtifacts i2)).symm,
      h]
  have hsh : Falba.shortHash i1 = Falba.shortHash i2 := by
    unfold Falba.shortHash
    rw [hagg]
  exact ⟨hsh, by unfold Falba.resultDirName; rw [hsh]⟩

/-- Witness for C10: a bare file `a` with content `[1]` against a directory
`d` holding a file `b` with the same content: names and structure differ,
contents coincide, and both the short hash and the directory name agree. -/
theorem Falba.short_hash_content_only_witness :
    Falba.shortHash [Falba.FsEntry.file "a" [1]] =
      Falba.shortHash [Falba.FsEntry.dir "d" [Falba.FsEntry.file "b" [1]]] ∧
    Falba.resultDirName "bench" [Falba.FsEntry.file "a" [1]] =
      Falba.resultDirName "bench" [Falba.FsEntry.dir "d" [Falba.FsEntry.file "b" [1]]] :=
  Falba.short_hash_content_only "bench" [Falba.FsEntry.file "a" [1]]
    [Falba.FsEntry.dir "d" [Falba.FsEntry.file "b" [1]]]
    (by simp [Falba.iterArtifacts, Falba.walkTree, Falba.topFiles,
              Falba.subdirRows])

namespace Falba

/-- The keys of the aggregation output are the deduplicated group keys. -/
theorem aggRows_map_key (rows : List FlatRow) (experiment_fact : String) :
    (aggRows rows experiment_fact).map AggRow.key =
      (rows.map (rowKey experiment_fact)).dedup := by
  unfold aggRows
  rw [List.map_map]
  exact List.map_id _

end Falba

/-- C7: once validation passes and at least one selected row carries the
requested metric, `compare` groups the matching rows by the experiment
fact's value (absence, `none`, being a permitted key) and returns exactly
one output row per distinct value; its sample count is the number of
matching metric rows in that group, its mean the arithmetic mean of the
group's values, and its standard deviation — carried as its square `stdSq`
to stay in `ℚ` — the sample standard deviation over the group, left
undefined (`none`) rather than crashing when the count is below two. -/
theorem Falba.compare_aggregates (db : List Falba.Result)
    (facts_eq : List (String × Falba.FactVal)) (experiment_fact metric : String)
    (hv : Falba.validate db facts_eq experiment_fact = .ok ())
    (hmr : ∃ row ∈ Falba.selectedRows db facts_eq, row.metric = metric) :
    ∃ out, Falba.compare db facts_eq experiment_fact metric = .ok out ∧
      (out.map Falba.AggRow.key).Nodup ∧
      (∀ k, k ∈ out.map Falba.AggRow.key ↔
        ∃ row ∈ Falba.metricRows db facts_eq metric,
          Falba.rowKey experiment_fact row = k) ∧
      ∀ row ∈ out,
        row.samples = ((Falba.groupRows (Falba.metricRows db facts_eq metric)
          experiment_fact row.key).map Falba.FlatRow.value).length ∧
        row.mean = ((Falba.groupRows (Falba.metricRows db facts_eq metric)
            experiment_fact row.key).map Falba.FlatRow.value).sum /
          (((Falba.groupRows (Falba.metricRows db facts_eq metric)
            experiment_fact row.key).map Falba.FlatRow.value).length : ℚ) ∧
        row.stdSq = (if 2 ≤ ((Falba.groupRows (Falba.metricRows db facts_eq metric)
            experiment_fact row.key).map Falba.FlatRow.value).length then
          some ((((Falba.groupRows (Falba.metricRows db facts_eq metric)
              experiment_fact row.key).map Falba.FlatRow.value).map
              (fun v => (v - Falba.listMean ((Falba.groupRows
                (Falba.metricRows db facts_eq metric) experiment_fact
                row.key).map Falba.FlatRow.value)) ^ 2)).sum /
            ((((Falba.groupRows (Falba.metricRows db facts_eq metric)
              experiment_fact row.key).map Falba.FlatRow.value).length : ℚ) - 1))
          else none) := by
  have hne : Falba.metricRows db facts_eq metric ≠ [] := by
    obtain ⟨row, hrow, hmet⟩ := hmr
    intro h0
    have hmem : row ∈ Falba.metricRows db facts_eq metric := by
      unfold Falba.metricRows
      exact List.mem_filter.mpr ⟨hrow, by simp [hmet]⟩
    rw [h0] at hmem
    simp at hmem
  have hcmp : Falba.compare db facts_eq experiment_fact metric =
      .ok (Falba.aggRows (Falba.metricRows db facts_eq metric) experiment_fact) := by
    unfold Falba.compare
    rw [hv]
    exact if_neg hne
  refine ⟨_, hcmp, ?_, ?_, ?_⟩
  · rw [Falba.aggRows_map_key]
    exact List.nodup_dedup _
  · intro k
    rw [Falba.aggRows_map_key, List.mem_dedup, List.mem_map]
  · intro row hrow
    unfold Falba.aggRows at hrow
    obtain ⟨k, _, hkrow⟩ := List.mem_map.mp hrow
    subst hkrow
    exact ⟨rfl, rfl, rfl⟩

/-- Witness for C7 at the spec-§8 scenario `compare variant latency
--fact-eq os linux`, which the spec requires to succeed with groups A and
B of one sample each. -/
theorem Falba.compare_aggregates_witness :
    ∃ out, Falba.compare Falba.exDb [("os", Falba.FactVal.str "linux")]
        "variant" "latency" = .ok out ∧
      (out.map Falba.AggRow.key).Nodup ∧
      (∀ k, k ∈ out.map Falba.AggRow.key ↔
        ∃ row ∈ Falba.metricRows Falba.exDb [("os", Falba.FactVal.str "linux")]
          "latency", Falba.rowKey "variant" row = k) ∧
      ∀ row ∈ out,
        row.samples = ((Falba.groupRows (Falba.metricRows Falba.exDb
          [("os", Falba.FactVal.str "linux")] "latency") "variant"
          row.key).map Falba.FlatRow.value).length ∧
        row.mean = ((Falba.groupRows (Falba.metricRows Falba.exDb
            [("os", Falba.FactVal.str "linux")] "latency") "variant"
            row.key).map Falba.FlatRow.value).sum /
          (((Falba.groupRows (Falba.metricRows Falba.exDb
            [("os", Falba.FactVal.str "linux")] "latency") "variant"
            row.key).map Falba.FlatRow.value).length : ℚ) ∧
        row.stdSq = (if 2 ≤ ((Falba.groupRows (Falba.metricRows Falba.exDb
            [("os", Falba.FactVal.str "linux")] "latency") "variant"
            row.key).map Falba.FlatRow.value).length then
          some ((((Falba.groupRows (Falba.metricRows Falba.exDb
              [("os", Falba.FactVal.str "linux")] "latency") "variant"
              row.key).map Falba.FlatRow.value).map
              (fun v => (v - Falba.listMean ((Falba.groupRows
                (Falba.metricRows Falba.exDb
                  [("os", Falba.FactVal.str "linux")] "latency") "variant"
                row.key).map Falba.FlatRow.value)) ^ 2)).sum /
            ((((Falba.groupRows (Falba.metricRows Falba.exDb
              [("os", Falba.FactVal.str "linux")] "latency") "variant"
              row.key).map Falba.FlatRow.value).length : ℚ) - 1))
          else none) :=
  Falba.compare_aggregates Falba.exDb [("os", Falba.FactVal.str "linux")]
    "variant" "latency" (by decide)
    ⟨⟨"R1", [("os", .str "linux"), ("variant", .str "A")], "latency", 10⟩,
     by decide, rfl⟩

/-- C8: once validation passes (so in particular the selection is
nonempty), `compare` fails with `NoMatchingMetricError` iff none of the
selected flat rows carries the requested metric name, and the error carries
the requested metric together with the set of metric names available among
the selected rows. -/
theorem Falba.no_matching_metric_iff (db : List Falba.Result)
    (facts_eq : List (String × Falba.FactVal)) (experiment_fact metric : String)
    (hv : Falba.validate db facts_eq experiment_fact = .ok ()) :
    ((∃ m a, Falba.compare db facts_eq experiment_fact metric =
        .error (.noMatchingMetric m a)) ↔
      ∀ row ∈ Falba.selectedRows db facts_eq, row.metric ≠ metric) ∧
    ∀ m a, Falba.compare db facts_eq experiment_fact metric =
        .error (.noMatchingMetric m a) →
      m = metric ∧
      a = ((Falba.selectedRows db facts_eq).map Falba.FlatRow.metric).toFinset := by
  by_cases hmr : Falba.metricRows db facts_eq metric = []
  · have hcmp : Falba.compare db facts_eq experiment_fact metric =
        .error (.noMatchingMetric metric
          ((Falba.selectedRows db facts_eq).map Falba.FlatRow.metric).toFinset) := by
      unfold Falba.compare
      rw [hv]
      exact if_pos hmr
    constructor
    · constructor
      · intro _ row hrow
        have := List.filter_eq_nil_iff.mp hmr row hrow
        simpa using this
      · intro _
        exact ⟨_, _, hcmp⟩
    · intro m a h
      rw [hcmp] at h
      injection h with h
      injection h with h1 h2
      exact ⟨h1.symm, h2.symm⟩
  · have hcmp : Falba.compare db facts_eq experiment_fact metric =
        .ok (Falba.aggRows (Falba.metricRows db facts_eq metric)
          experiment_fact) := by
      unfold Falba.compare
      rw [hv]
      exact if_neg hmr
    constructor
    · constructor
      · rintro ⟨m, a, h⟩
        rw [hcmp] at h
        simp at h
      · intro hall
        exfalso
        obtain ⟨row, hrow⟩ := List.exists_mem_of_ne_nil _ hmr
        unfold Falba.metricRows at hrow
        rw [List.mem_filter] at hrow
        exact hall row hrow.1 (by simpa using hrow.2)
    · intro m a h
      rw [hcmp] at h
      simp at h

/-- Witness for C8: at the spec-§8 scenario with metric `latency`, where
matching rows exist, so no `NoMatchingMetricError` is raised. -/
theorem Falba.no_matching_metric_iff_witness :
    ((∃ m a, Falba.compare Falba.exDb [("os", Falba.FactVal.str "linux")]
        "variant" "latency" = .error (.noMatchingMetric m a)) ↔
      ∀ row ∈ Falba.selectedRows Falba.exDb [("os", Falba.FactVal.str "linux")],
        row.metric ≠ "latency") ∧
    ∀ m a, Falba.compare Falba.exDb [("os", Falba.FactVal.str "linux")]
        "variant" "latency" = .error (.noMatchingMetric m a) →
      m = "latency" ∧
      a = ((Falba.selectedRows Falba.exDb
        [("os", Falba.FactVal.str "linux")]).map Falba.FlatRow.metric).toFinset :=
  Falba.no_matching_metric_iff Falba.exDb [("os", Falba.FactVal.str "linux")]
    "variant" "latency" (by decide)

/-- C9 (implicit): validation never checks that the experiment fact is a
known fact name — when the `facts_eq` keys all exist, the confounding loop
finds nothing and the selection is nonempty, `validate` succeeds even
though the experiment fact occurs on no result in the database, and in
particular raises no `UnknownFactError` for it. -/
theorem Falba.validate_ignores_experiment_fact (db : List Falba.Result)
    (facts_eq : List (String × Falba.FactVal)) (experiment_fact : String)
    (_hexp : experiment_fact ∉ Falba.extantFacts db)
    (hkeys : ∀ k ∈ facts_eq.map Prod.fst, k ∈ Falba.extantFacts db)
    (hconf : ∀ f ∈ Falba.extantFacts db, f ∉ facts_eq.map Prod.fst →
      (Falba.factVals (Falba.filteredResults db facts_eq) f).card = 1)
    (hsel : Falba.selectedRows db facts_eq ≠ []) :
    Falba.validate db facts_eq experiment_fact = .ok () := by
  have hm : (facts_eq.map Prod.fst).filter
      (fun k => decide (k ∉ Falba.extantFacts db)) = [] :=
    (Falba.missing_filter_eq_nil db facts_eq).mpr hkeys
  have hfind : Falba.confoundingFact db facts_eq experiment_fact
      (Falba.filteredResults db facts_eq) = none := by
    unfold Falba.confoundingFact
    rw [List.find?_eq_none]
    intro f hf
    simp only [decide_eq_true_eq]
    rintro ⟨_, h2, h3⟩
    exact h3 (hconf f hf h2)
  unfold Falba.validate
  rw [if_pos hm, hfind, if_neg hsel]

/-- Witness for C9: a database whose single result has no facts at all, so
the experiment fact `variant` is unknown to the whole database, and
validation still succeeds. -/
theorem Falba.validate_ignores_experiment_fact_witness :
    Falba.validate [Falba.exP1] [] "variant" = .ok () :=
  Falba.validate_ignores_experiment_fact [Falba.exP1] [] "variant"
    (by decide) (by decide) (by decide) (by decide)
